import Mathlib

/-
Verification development for the TruthSig provenance and evidence engine.

The frontend helpers (`asStringParam`, `prettyBytes`, `stateBadge`, the
quick-scan response mapping, and the two report-download callers) are
embedded directly from the TypeScript sources in `web/src/app`.  The
backend engine (content store, custody ledger, manifest verifier, trust
scoring, video analyzer) is not part of the source tree; those components
are modelled from the specification, as marked on each definition.
-/

namespace TruthSig

/-! ## A small model of JavaScript runtime values

`JSValue` covers the value shapes the frontend helpers inspect: strings,
numbers, booleans, `null`, `undefined`, arrays and objects. -/

inductive JSValue : Type where
  | str (s : String)
  | num (q : ℚ)
  | boolean (b : Bool)
  | nullv
  | undef
  | arr (xs : List JSValue)
  | obj (fields : List (String × JSValue))

/-- Embeds `asStringParam` from `web/src/app/app/cases/[id]/page.tsx`
(also duplicated in the unnamed case page source): a string is returned
unchanged; an array whose first element is a string yields that element;
everything else yields the empty string. -/
def asStringParam : JSValue → String
  | .str s => s
  | .arr (.str s :: _) => s
  | _ => ""

/-! ## `prettyBytes` from `web/src/app/page.tsx`

JavaScript numbers are modelled as `JSNum`: NaN, the two infinities, and
finite values as rationals.  The JS guard `if (!n && n !== 0) return ""`
returns the empty string exactly for NaN (for `0` the second conjunct is
false; for every other number the first is).  The final `toFixed`
formatting is presentation only; the embedding returns the numeric value
and the unit string that are displayed. -/

inductive JSNum : Type where
  | nan
  | posInfty
  | negInfty
  | val (q : ℚ)
deriving DecidableEq

/-- The JS comparison `x >= 1024` on the model (`NaN >= 1024` is false). -/
def JSNum.ge1024 : JSNum → Bool
  | .nan => false
  | .posInfty => true
  | .negInfty => false
  | .val q => decide ((1024 : ℚ) ≤ q)

/-- The JS division `x / 1024` on the model. -/
def JSNum.div1024 : JSNum → JSNum
  | .nan => .nan
  | .posInfty => .posInfty
  | .negInfty => .negInfty
  | .val q => .val (q / 1024)

/-- The fixed unit list of `prettyBytes`. -/
def units : List String := ["B", "KB", "MB", "GB"]

/-- The `while (x >= 1024 && i < units.length - 1)` loop of `prettyBytes`:
divides by 1024 and bumps the unit index while the value is at least 1024
and the index is below 3. -/
def prettyLoop (x : JSNum) (i : Nat) : JSNum × Nat :=
  if x.ge1024 = true ∧ i < 3 then prettyLoop x.div1024 (i + 1) else (x, i)
termination_by 3 - i
decreasing_by omega

/-- Embeds `prettyBytes` from `web/src/app/page.tsx` up to decimal
formatting: `none` models the early `return ""` (taken exactly on NaN);
otherwise the result is the loop's final value paired with its unit. -/
def prettyBytes : JSNum → Option (JSNum × String)
  | .nan => none
  | x => some ((prettyLoop x 0).1, units.getD (prettyLoop x 0).2 "")

/-! ## `stateBadge` from `web/src/app/page.tsx` -/

/-- The label/class pair produced by the landing page's state badge. -/
structure BadgeInfo : Type where
  label : String
  cls : String
deriving DecidableEq

/-- Modelled from the spec: `provenance_state` is a closed enumeration of
exactly three values (the backend that produces it is outside the source
tree; the frontend receives it as a string). -/
inductive ProvenanceState : Type where
  | verifiedOriginal
  | alteredOrBrokenProvenance
  | unverifiableNoProvenance
deriving DecidableEq

/-- The wire string of each `ProvenanceState` value. -/
def ProvenanceState.wire : ProvenanceState → String
  | .verifiedOriginal => "VERIFIED_ORIGINAL"
  | .alteredOrBrokenProvenance => "ALTERED_OR_BROKEN_PROVENANCE"
  | .unverifiableNoProvenance => "UNVERIFIABLE_NO_PROVENANCE"

/-- Embeds the `stateBadge` memo from `web/src/app/page.tsx`: three exact
string matches, then the generic fallback (`label: s || "—"`, slate
styling). -/
def stateBadge (s : String) : BadgeInfo :=
  if s = "VERIFIED_ORIGINAL" then
    ⟨"Verified (C2PA)", "border-emerald-200 bg-emerald-50 text-emerald-800"⟩
  else if s = "ALTERED_OR_BROKEN_PROVENANCE" then
    ⟨"Altered / Broken provenance", "border-amber-200 bg-amber-50 text-amber-900"⟩
  else if s = "UNVERIFIABLE_NO_PROVENANCE" then
    ⟨"No provenance (unverifiable)", "border-slate-200 bg-slate-100 text-slate-800"⟩
  else
    ⟨if s = "" then "—" else s, "border-slate-200 bg-slate-100 text-slate-800"⟩

/-! ## The quick-scan response mapping from `web/src/app/page.tsx`

The backend JSON is modelled field by field: an `Option` is `none` when
the key is absent, `null` or `undefined` (the cases JavaScript's `??`
skips) and `some` when a usable value is present.  `raw.provenance?.x`
is `raw.provenance.bind x`. -/

/-- The nested `raw.provenance` object, with the keys `quickScan` reads. -/
structure RawProvenance : Type where
  state : Option String
  summary : Option String
  ai_disclosure : Option JSValue
  transformations : Option JSValue
  findings : Option JSValue
  c2pa : Option JSValue
  c2pa_summary : Option JSValue
  metadata : Option JSValue
  ffprobe : Option JSValue

/-- The nested `raw.media` object, with the key `quickScan` reads. -/
structure RawMedia : Type where
  ffprobe : Option JSValue

/-- The backend `/analyze` response, restricted to the keys `quickScan`
reads (flat alternatives plus the nested `provenance` / `media` shapes). -/
structure RawResponse : Type where
  filename : Option String
  media_type : Option String
  mime_type : Option String
  sha256 : Option String
  bytes : Option Nat
  size : Option Nat
  provenance_state : Option String
  summary : Option String
  one_line_rationale : Option String
  ai_disclosure : Option JSValue
  ai : Option JSValue
  transformations : Option JSValue
  findings : Option JSValue
  flags : Option JSValue
  c2pa : Option JSValue
  c2pa_summary : Option JSValue
  metadata : Option JSValue
  ffprobe : Option JSValue
  provenance : Option RawProvenance
  media : Option RawMedia

/-- The selected `File` (`file.name`, `file.size`) used as the final
fallback for `filename` and `bytes`. -/
structure FileInfo : Type where
  name : String
  size : Nat

/-- The UI contract type `AnalysisResult` from `web/src/app/page.tsx`. -/
structure AnalysisResult : Type where
  filename : String
  media_type : String
  sha256 : String
  bytes : Nat
  provenance_state : String
  summary : String
  ai_disclosure : Option JSValue
  transformations : Option JSValue
  findings : Option JSValue
  c2pa : Option JSValue
  metadata : Option JSValue
  ffprobe : Option JSValue

/-- Embeds the `raw` → `AnalysisResult` mapping inside `quickScan`
(`web/src/app/page.tsx`): every field is a `??` chain over flat and
nested alternatives, ending in a literal default or a `file` fallback. -/
def quickScanMap (file : FileInfo) (raw : RawResponse) : AnalysisResult where
  filename := raw.filename.getD file.name
  media_type := (raw.media_type.or raw.mime_type).getD ""
  sha256 := raw.sha256.getD ""
  bytes := ((raw.bytes.or raw.size).getD file.size)
  provenance_state := (raw.provenance_state.or (raw.provenance.bind RawProvenance.state)).getD ""
  summary := ((raw.summary.or (raw.provenance.bind RawProvenance.summary)).or raw.one_line_rationale).getD ""
  ai_disclosure := (raw.ai_disclosure.or (raw.provenance.bind RawProvenance.ai_disclosure)).or raw.ai
  transformations := raw.transformations.or (raw.provenance.bind RawProvenance.transformations)
  findings := (raw.findings.or (raw.provenance.bind RawProvenance.findings)).or raw.flags
  c2pa := ((raw.c2pa.or raw.c2pa_summary).or (raw.provenance.bind RawProvenance.c2pa)).or
    (raw.provenance.bind RawProvenance.c2pa_summary)
  metadata := raw.metadata.or (raw.provenance.bind RawProvenance.metadata)
  ffprobe := (raw.ffprobe.or (raw.media.bind RawMedia.ffprobe)).or
    (raw.provenance.bind RawProvenance.ffprobe)

/-! ## The two report-download callers

`generateReport` lives in the unnamed case-page source (`src/unnamed/part_000`)
and branches on the response's content type; `generateEvidenceReport`
lives in `web/src/app/app/cases/[id]/page.tsx`. -/

/-- Character-list check that `pat` occurs at the start of `l`. -/
def listStartsWith : List Char → List Char → Bool
  | _, [] => true
  | [], _ :: _ => false
  | a :: as, b :: bs => a == b && listStartsWith as bs

/-- Character-list check that `pat` occurs contiguously inside `l`
(the JS `String.prototype.includes`). -/
def listContainsSeq : List Char → List Char → Bool
  | l, pat =>
    listStartsWith l pat ||
      (match l with
       | [] => false
       | _ :: t => listContainsSeq t pat)

/-- The JS `s.includes(pat)` on strings. -/
def strIncludes (s pat : String) : Bool := listContainsSeq s.toList pat.toList

/-- ASCII lowering of one character (the JS `toLowerCase` on the ASCII
range the content-type header uses). -/
def charToLower (c : Char) : Char :=
  if 'A' ≤ c ∧ c ≤ 'Z' then Char.ofNat (c.toNat + 32) else c

/-- The JS `s.toLowerCase()`. -/
def strToLower (s : String) : String := ⟨s.toList.map charToLower⟩

/-- The JS `s.trim()`: strips leading and trailing whitespace. -/
def strTrim (s : String) : String :=
  ⟨((s.toList.dropWhile Char.isWhitespace).reverse.dropWhile Char.isWhitespace).reverse⟩

/-- What a report caller does with the HTTP response body. -/
inductive ReportAction : Type where
  | savePdf
  | saveMarkdown (md : String)
  | saveRawJson
  | saveText
deriving DecidableEq

/-- Embeds the response handling of `generateReport` (case-level caller,
`src/unnamed/part_000` lines 156–190).  `ct` is the raw `content-type`
header; `jsonMarkdown` models `data?.markdown` after `res.json()` —
`some s` when parsing succeeded and the `markdown` field is the string
`s`, `none` otherwise (parse failure, missing field, or non-string). -/
def generateReport (ct : String) (jsonMarkdown : Option String) : ReportAction :=
  let c := strToLower ct
  if strIncludes c "application/pdf" then .savePdf
  else if strIncludes c "application/json" then
    match jsonMarkdown with
    | some md => if strTrim md ≠ "" then .saveMarkdown md else .saveRawJson
    | none => .saveRawJson
  else .saveText

/-- Embeds the response handling of `generateEvidenceReport` (per-evidence
caller, `web/src/app/app/cases/[id]/page.tsx` lines 150–161): the body is
read with `res.blob()` and saved as `truthsig-evidence-….pdf`
unconditionally — the content type is never inspected. -/
def generateEvidenceReport (_ct : String) : ReportAction := .savePdf

/-- The property claimed of the report callers: both branch on the
returned content type — a PDF response is saved as PDF, a JSON response
carrying `markdown` is saved as that text, and a non-PDF response is
never saved as a PDF document. -/
def ReportCallersBranch : Prop :=
  (∀ ct md, strIncludes (strToLower ct) "application/pdf" = true →
    generateReport ct md = .savePdf) ∧
  (∀ ct md s, strIncludes (strToLower ct) "application/pdf" = false →
    strIncludes (strToLower ct) "application/json" = true →
    md = some s → strTrim s ≠ "" → generateReport ct md = .saveMarkdown s) ∧
  (∀ ct, strIncludes (strToLower ct) "application/pdf" = false →
    generateEvidenceReport ct ≠ .savePdf)

/-! ## Custody ledger (spec §4.5)

Modelled from the spec: the ledger implementation is not in the source
tree.  Payloads are bit strings (so "single-bit mutation" is literal).
The cryptographic hash is modelled by an injective encoding: `hashBits`
for the payload hash and `Nat.pair` for the combined hash
`H(payload_hash, prev_event_hash)`; collision-freeness of the real hash
becomes injectivity of the model hash. -/

/-- Modelled from the spec: the payload hash `H(application payload)`,
an injective encoding of a bit string into `ℕ`. -/
def hashBits : List Bool → ℕ
  | [] => 0
  | b :: t => Nat.pair (if b then 1 else 0) (hashBits t) + 1

/-- Modelled from the spec: a stored custody event — its id, raw payload,
stored predecessor hash, and stored combined hash
`H(payload_hash, prev_event_hash)`. -/
structure CustodyEvent : Type where
  id : ℕ
  payload : List Bool
  prevHash : ℕ
  combined : ℕ
deriving DecidableEq

/-- Modelled from the spec: appending events one by one, threading the
previous event's combined hash; `prev` starts at the genesis sentinel `0`
and `idx` numbers the events. -/
def mkChainAux (prev idx : ℕ) : List (List Bool) → List CustodyEvent
  | [] => []
  | p :: ps =>
    let c := Nat.pair (hashBits p) prev
    ⟨idx, p, prev, c⟩ :: mkChainAux c (idx + 1) ps

/-- The chain stored for a case with the given event payloads, genesis
predecessor fixed at the zero sentinel. -/
def mkChain (ps : List (List Bool)) : List CustodyEvent := mkChainAux 0 0 ps

/-- Modelled from the spec: the verification walk.  It recomputes each
combined hash in order from the stored payload and the running
recomputed predecessor hash, compares it to the stored chain, and halts
with the event id at the first divergence (`Except.error` models
`ChainIntegrityViolation` carrying that id). -/
def verifyAux (prev : ℕ) : List CustodyEvent → Except ℕ Unit
  | [] => .ok ()
  | e :: es =>
    let c := Nat.pair (hashBits e.payload) prev
    if c = e.combined then verifyAux c es else .error e.id

/-- The ledger verification walk over a full stored chain. -/
def verifyWalk (events : List CustodyEvent) : Except ℕ Unit := verifyAux 0 events

/-- Flips the bit at position `j` of a payload. -/
def flipBit (l : List Bool) (j : ℕ) : List Bool := l.set j (! l.getD j false)

/-- Mutates the stored payload of event `i` in place (its stored hashes
are left untouched — the post-hoc tampering of Scenario D). -/
def mutatePayload (events : List CustodyEvent) (i j : ℕ) : List CustodyEvent :=
  match events[i]? with
  | none => events
  | some e => events.set i { e with payload := flipBit e.payload j }

/-! ## Content store upload (spec §4.1)

Modelled from the spec: blobs are byte lists, the content digest is an
injective encoding of the bytes, media kind is sniffed from magic bytes,
and upload is idempotent per (case, digest). -/

/-- Modelled from the spec: the content digest, an injective encoding of
the byte content into `ℕ` (deterministic by construction). -/
def digest : List ℕ → ℕ
  | [] => 0
  | b :: t => Nat.pair b (digest t) + 1

/-- The media kinds the engine supports. -/
inductive MediaKind : Type where
  | image
  | video
deriving DecidableEq

/-- Modelled from the spec: media-kind sniffing from content (magic
bytes), never from the filename; `none` means no supported container was
recognized (`UnsupportedMediaKind`). -/
def sniffKind : List ℕ → Option MediaKind
  | 255 :: 216 :: _ => some .image
  | 0 :: 0 :: 0 :: _ => some .video
  | _ => none

/-- The analysis status of an evidence record. -/
inductive AnalysisStatus : Type where
  | pending
  | running
  | done
  | failed
deriving DecidableEq

/-- Modelled from the spec: an Evidence record. -/
structure EvidenceRec : Type where
  id : ℕ
  case_id : ℕ
  filename : String
  dgst : ℕ
  status : AnalysisStatus
deriving DecidableEq

/-- Modelled from the spec: the persistent state the content store
touches — blob store, evidence table, custody events (as
(case id, event type) pairs), the id counter, and the analysis queue. -/
structure StoreState : Type where
  blobs : List (ℕ × List ℕ)
  evidences : List EvidenceRec
  events : List (ℕ × String)
  nextId : ℕ
  jobs : List ℕ
deriving DecidableEq

/-- Modelled from the spec (§4.1): upload.  Sniffs the kind (failing with
`UnsupportedMediaKind` otherwise), computes the digest; if an evidence
with that (case, digest) exists it is returned unchanged and only a
"duplicate-detected" custody event is appended; otherwise the blob is
persisted, a PENDING evidence is created, and one analysis job is
enqueued. -/
def upload (st : StoreState) (caseId : ℕ) (filename : String) (bytes : List ℕ) :
    Except String (StoreState × EvidenceRec) :=
  match sniffKind bytes with
  | none => .error "UnsupportedMediaKind"
  | some _ =>
    let d := digest bytes
    match st.evidences.find? (fun e => e.case_id == caseId && e.dgst == d) with
    | some e =>
      .ok ({ st with events := st.events ++ [(caseId, "duplicate-detected")] }, e)
    | none =>
      let e : EvidenceRec := ⟨st.nextId, caseId, filename, d, .pending⟩
      .ok (⟨st.blobs ++ [(d, bytes)], st.evidences ++ [e],
            st.events ++ [(caseId, "evidence-added")], st.nextId + 1,
            st.jobs ++ [e.id]⟩, e)

/-! ## Manifest verifier (spec §4.2) and trust scoring (spec §4.4)

Modelled from the spec: neither component is in the source tree. -/

/-- Modelled from the spec: `ManifestResult`
`{present, verified, assertions[], broken_reason?}`. -/
structure ManifestResult : Type where
  present : Bool
  verified : Bool
  assertions : List ℕ
  broken_reason : Option String
deriving DecidableEq

/-- Modelled from the spec: locates the embedded manifest segment — the
bytes following the first occurrence of the container's manifest marker
`[194, 42]`; `none` when no marker occurs (the "absent" outcome). -/
def locateSegment : List ℕ → Option (List ℕ)
  | 194 :: 42 :: rest => some rest
  | _ :: rest => locateSegment rest
  | [] => none

/-- Modelled from the spec: the manifest payload — a length-prefixed
assertion list.  A segment whose declared length exceeds the bytes
actually present is partially parseable and yields `none`. -/
def parseManifest : List ℕ → Option (List ℕ)
  | [] => none
  | n :: rest => if n ≤ rest.length then some (rest.take n) else none

/-- Modelled from the spec: signature verification against an explicit
trusted-root configuration — the manifest's first assertion must name a
configured root. -/
def sigOk (roots : List ℕ) (assertions : List ℕ) : Bool :=
  match assertions with
  | k :: _ => roots.contains k
  | [] => false

/-- Modelled from the spec: the covered-range hash check — the manifest's
second assertion must equal the recomputed content digest (reduced). -/
def hashOk (blob : List ℕ) (assertions : List ℕ) : Bool :=
  match assertions with
  | _ :: h :: _ => h == digest blob % 251
  | _ => false

/-- Modelled from the spec (§4.2): the manifest verifier.  No segment ⇒
"absent" (`present := false`, no broken reason); a malformed or partially
parseable segment fails closed as "broken" (`verified := false` with a
`broken_reason` code); a parsed manifest is verified against the trusted
roots and the covered-range hash. -/
def verifyManifest (roots : List ℕ) (blob : List ℕ) : ManifestResult :=
  match locateSegment blob with
  | none => ⟨false, false, [], none⟩
  | some seg =>
    match parseManifest seg with
    | none => ⟨true, false, [], some "MALFORMED_MANIFEST"⟩
    | some asserts =>
      if sigOk roots asserts && hashOk blob asserts then
        ⟨true, true, asserts, none⟩
      else
        ⟨true, false, asserts, some "SIGNATURE_OR_HASH_MISMATCH"⟩

/-- Modelled from the spec: `ForensicResult`, polymorphic over image and
video — the image variant holds an anomaly score and a heatmap artifact
reference, the video variant an ordered flagged-frame list plus per-frame
artifact references. -/
inductive ForensicResult : Type where
  | image (anomaly_score : ℤ) (heatmap : String)
  | video (flagged_frames : List (ℕ × ℤ)) (artifacts : List String)
deriving DecidableEq

/-- Modelled from the spec: the image anomaly threshold of the scoring
policy's "forensic anomaly present" test (anomaly scores are modelled as
fixed-point integers, e.g. hundredths). -/
def imageAnomalyThreshold : ℤ := 30

/-- Modelled from the spec: the forensic anomaly reasons contributed by a
`ForensicResult` — an image whose anomaly score exceeds the threshold, or
each flagged video frame. -/
def forensicReasons : ForensicResult → List String
  | .image s _ =>
    if imageAnomalyThreshold < s then ["image error-level anomaly score above threshold"]
    else []
  | .video frames _ => frames.map (fun f => "video frame " ++ toString f.1 ++ " flagged")

/-- Modelled from the spec: `TrustScore`
`{score, one_line_rationale, top_reasons (≤5, ordered by severity)}`. -/
structure TrustScore : Type where
  score : ℕ
  one_line_rationale : String
  top_reasons : List String
deriving DecidableEq

/-- Modelled from the spec (§4.4): the pure scoring policy.  Verified
manifest and no forensic flags ⇒ high band; absent manifest and no flags
⇒ mid band citing lack of provenance; broken manifest or any forensic
flag ⇒ low band listing each contributing reason most severe first
(broken provenance ahead of forensic flags), capped at 5. -/
def score (m : ManifestResult) (f : ForensicResult) : TrustScore :=
  let flags := forensicReasons f
  if m.verified && flags.isEmpty then
    ⟨92, "Verified provenance manifest and no forensic anomalies.",
      ["provenance manifest verified"]⟩
  else if !m.present && flags.isEmpty then
    ⟨50, "No provenance data found; no evidence of tampering.",
      ["no provenance data available"]⟩
  else
    let manifestReasons :=
      if m.present && !m.verified then ["provenance manifest broken or not verifiable"]
      else if !m.present then ["no provenance data available"] else []
    ⟨15, "Provenance broken or forensic anomalies detected.",
      (manifestReasons ++ flags).take 5⟩

/-! ## Video analyzer aggregation (spec §4.3)

Modelled from the spec: per-frame analyses are independent; a frame is
flagged when its anomaly score exceeds an absolute threshold or jumps
sharply from the previous sampled frame's score; results arriving in any
completion order are sorted into ascending frame-index order and capped. -/

/-- Modelled from the spec: video analyzer configuration — absolute
anomaly threshold, discontinuity jump bound, and the maximum reported
flagged-frame count. -/
structure VideoConfig : Type where
  threshold : ℤ
  jump : ℤ
  cap : ℕ

/-- Modelled from the spec: whether sampled frame `i` is flagged — its
score exceeds the absolute threshold, or (for `i > 0`) it deviates from
the neighboring sampled frame's score by more than the jump bound. -/
def frameFlag (scores : ℕ → ℤ) (cfg : VideoConfig) (i : ℕ) : Bool :=
  decide (cfg.threshold < scores i) ||
    (decide (0 < i) && decide (cfg.jump < |scores i - scores (i - 1)|))

/-- Sorts flagged-frame records into ascending frame-index order. -/
def sortByIndex (l : List (ℕ × ℤ)) : List (ℕ × ℤ) :=
  List.insertionSort (fun a b => a.1 ≤ b.1) l

/-- Modelled from the spec (§4.3): aggregation of the video analyzer.
`order` is the completion order of the parallel per-frame analyses (a
permutation of the sampled-frame indices); each completed analysis of a
flagged frame contributes an {index, score} record; the final list is
sorted by frame index and capped at `cfg.cap`. -/
def flaggedFrames (scores : ℕ → ℤ) (cfg : VideoConfig) (order : List ℕ) :
    List (ℕ × ℤ) :=
  (sortByIndex (order.filterMap
    (fun i => if frameFlag scores cfg i then some (i, scores i) else none))).take cfg.cap

/-- The frame scores of Scenario C: 30 sampled frames, frames 7, 14 and
22 score above the anomaly threshold, all others well below, with no
sharp jumps relative to the discontinuity bound. -/
def demoScores (i : ℕ) : ℤ := if i = 7 ∨ i = 14 ∨ i = 22 then 9 else 1

/-- The configuration of Scenario C: absolute threshold 5, a jump bound
no inter-frame difference reaches, cap 10. -/
def demoConfig : VideoConfig := ⟨5, 100, 10⟩

/-- A concrete nested `provenance` object carrying only a state. -/
def sampleProvenance : RawProvenance :=
  ⟨some "VERIFIED_ORIGINAL", none, none, none, none, none, none, none, none⟩

/-- A concrete backend response mixing flat, nested and fallback keys. -/
def sampleRaw : RawResponse :=
  ⟨some "img.jpg", none, some "image/jpeg", some "abc123", none, some 2048,
   none, some "looks consistent", none, none, none, none, none,
   some (.arr []), none, none, some (.obj []), none,
   some sampleProvenance, none⟩

/-- A concrete selected file. -/
def sampleFile : FileInfo := ⟨"upload.jpg", 4096⟩

/-! ## Theorems -/

/-- Claim C9: `asStringParam` is total and always returns a string — a
string input is returned unchanged; an array whose first element is a
string yields that first element; every other input (null, undefined,
non-strings, empty arrays, arrays with a non-string head) yields the
empty string; being a total Lean function, it never throws. -/
theorem asStringParam_total (v : JSValue) :
    (∀ s, v = .str s → asStringParam v = s) ∧
    (∀ s rest, v = .arr (.str s :: rest) → asStringParam v = s) ∧
    ((∀ s, v ≠ .str s) → (∀ s rest, v ≠ .arr (.str s :: rest)) →
      asStringParam v = "") := by
  refine ⟨fun s h => by subst h; rfl, fun s rest h => by subst h; rfl,
    fun h1 h2 => ?_⟩
  cases v with
  | str s => exact absurd rfl (h1 s)
  | arr xs =>
    cases xs with
    | nil => rfl
    | cons hd tl =>
      cases hd with
      | str s => exact absurd rfl (h2 s tl)
      | num q => rfl
      | boolean b => rfl
      | nullv => rfl
      | undef => rfl
      | arr ys => rfl
      | obj fs => rfl
  | num q => rfl
  | boolean b => rfl
  | nullv => rfl
  | undef => rfl
  | obj fs => rfl

/-- Witness for C9, at a string, an array headed by a string, and an
array headed by a number. -/
theorem asStringParam_total_witness :
    asStringParam (.str "case-7") = "case-7" ∧
    asStringParam (.arr [.str "id-1", .nullv]) = "id-1" ∧
    asStringParam (.arr [.num 3]) = "" :=
  ⟨(asStringParam_total (.str "case-7")).1 "case-7" rfl,
   (asStringParam_total (.arr [.str "id-1", .nullv])).2.1 "id-1" [.nullv] rfl,
   (asStringParam_total (.arr [.num 3])).2.2 (fun _ h => by cases h)
     (fun _ _ h => by simp at h)⟩

/-- Claim C3: the trust scoring function is deterministic — it is a pure
function of the `(ManifestResult, ForensicResult)` pair, so any two
invocations on equal inputs yield identical `TrustScore` output,
including the score value and the reason ordering; nothing else (no
randomness, clock or environment) enters the model. -/
theorem score_deterministic (m m' : ManifestResult) (f f' : ForensicResult)
    (hm : m = m') (hf : f = f') :
    score m f = score m' f' ∧
    (score m f).score = (score m' f').score ∧
    (score m f).top_reasons = (score m' f').top_reasons := by
  subst hm; subst hf
  exact ⟨rfl, rfl, rfl⟩

/-- Witness for C3 at a verified manifest and a clean image result. -/
theorem score_deterministic_witness :
    score ⟨true, true, [7], none⟩ (.image 10 "heatmap") =
      score ⟨true, true, [7], none⟩ (.image 10 "heatmap") :=
  (score_deterministic ⟨true, true, [7], none⟩ ⟨true, true, [7], none⟩
    (.image 10 "heatmap") (.image 10 "heatmap") rfl rfl).1

/-- Claim C7: `ProvenanceState` is a closed enumeration of exactly the
three published values, and `stateBadge` assigns the wire string of each
of the three a label and styling distinct from the other two, with a
single generic fallback branch for every other string. -/
theorem provenance_state_closed_badge (p q : ProvenanceState) (s : String)
    (hpq : p ≠ q)
    (h1 : s ≠ "VERIFIED_ORIGINAL") (h2 : s ≠ "ALTERED_OR_BROKEN_PROVENANCE")
    (h3 : s ≠ "UNVERIFIABLE_NO_PROVENANCE") :
    (p = .verifiedOriginal ∨ p = .alteredOrBrokenProvenance ∨
      p = .unverifiableNoProvenance) ∧
    (stateBadge p.wire).label ≠ (stateBadge q.wire).label ∧
    (stateBadge p.wire).cls ≠ (stateBadge q.wire).cls ∧
    stateBadge s =
      ⟨if s = "" then "—" else s, "border-slate-200 bg-slate-100 text-slate-800"⟩ := by
  refine ⟨by cases p <;> simp, ?_, ?_, ?_⟩
  · cases p <;> cases q <;> first
      | exact absurd rfl hpq
      | decide
  · cases p <;> cases q <;> first
      | exact absurd rfl hpq
      | decide
  · simp only [stateBadge, if_neg h1, if_neg h2, if_neg h3]

/-- Witness for C7, separating the verified and altered badges and
sending an unknown state to the generic fallback. -/
theorem provenance_state_closed_badge_witness :
    (stateBadge "VERIFIED_ORIGINAL").label ≠
      (stateBadge "ALTERED_OR_BROKEN_PROVENANCE").label ∧
    (stateBadge "VERIFIED_ORIGINAL").cls ≠
      (stateBadge "ALTERED_OR_BROKEN_PROVENANCE").cls ∧
    stateBadge "SOMETHING_ELSE" =
      ⟨"SOMETHING_ELSE", "border-slate-200 bg-slate-100 text-slate-800"⟩ := by
  have h := provenance_state_closed_badge .verifiedOriginal
    .alteredOrBrokenProvenance "SOMETHING_ELSE" (by decide) (by decide) (by decide)
    (by decide)
  exact ⟨h.2.1, h.2.2.1, by simpa using h.2.2.2⟩

/-- The loop of `prettyBytes` performs some `k` divisions with
`i + k` bounded by the unit-index bound `3` (when started below it). -/
theorem prettyLoop_bounded (j : ℕ) :
    ∀ (x : JSNum) (i : ℕ), 3 - i ≤ j →
      ∃ k, i + k ≤ max 3 i ∧ prettyLoop x i = (JSNum.div1024^[k] x, i + k) := by
  induction j with
  | zero =>
    intro x i hi
    refine ⟨0, by omega, ?_⟩
    rw [prettyLoop, if_neg (fun h => by omega)]
    simp
  | succ j ih =>
    intro x i hi
    rw [prettyLoop]
    by_cases h : x.ge1024 = true ∧ i < 3
    · obtain ⟨k, hk, heq⟩ := ih x.div1024 (i + 1) (by omega)
      refine ⟨k + 1, by omega, ?_⟩
      rw [if_pos h, heq, Function.iterate_succ_apply]
      exact congrArg _ (by omega)
    · refine ⟨0, by omega, ?_⟩
      rw [if_neg h]
      simp

/-- Claim C10: `prettyBytes` terminates on every input (it is a total
function): NaN yields the empty-string result, `0` yields `0 B`, and for
every non-NaN input the loop divides by 1024 at most three times, so the
value shown is the input divided by 1024 at most three times and the
reported unit is one of the four fixed units. -/
theorem prettyBytes_total (n : JSNum) :
    (n = .nan → prettyBytes n = none) ∧
    (n = .val 0 → prettyBytes n = some (.val 0, "B")) ∧
    (n ≠ .nan → ∃ k, k ≤ 3 ∧
      prettyBytes n = some (JSNum.div1024^[k] n, units.getD k "") ∧
      units.getD k "" ∈ units) := by
  refine ⟨fun h => by subst h; rfl, fun h => ?_, fun h => ?_⟩
  · subst h
    simp +decide [prettyBytes, prettyLoop, JSNum.ge1024, units]
  · obtain ⟨k, hk, heq⟩ := prettyLoop_bounded 3 n 0 (by omega)
    have hk3 : k ≤ 3 := by omega
    have hmem : units.getD k "" ∈ units := by
      have : k = 0 ∨ k = 1 ∨ k = 2 ∨ k = 3 := by omega
      rcases this with rfl | rfl | rfl | rfl <;> simp [units]
    refine ⟨k, hk3, ?_, hmem⟩
    cases n with
    | nan => exact absurd rfl h
    | posInfty => simp [prettyBytes, heq]
    | negInfty => simp [prettyBytes, heq]
    | val q => simp [prettyBytes, heq]

/-- Witness for C10 at the finite input 500 (below 1024, so the loop
runs zero times) and at NaN. -/
theorem prettyBytes_total_witness :
    (JSNum.val 500 ≠ JSNum.nan) ∧
    (∃ k, k ≤ 3 ∧
      prettyBytes (.val 500) = some (JSNum.div1024^[k] (.val 500), units.getD k "") ∧
      units.getD k "" ∈ units) ∧
    prettyBytes .nan = none :=
  ⟨by simp, (prettyBytes_total (.val 500)).2.2 (by simp),
   (prettyBytes_total .nan).1 rfl⟩

/-- Claim C8: the quick-scan ingress mapping accepts loosely-shaped,
multiply-nested response fields — each mapped `AnalysisResult` field is
taken from the first present of its flat or nested key alternatives
(e.g. `provenance_state` from `raw.provenance_state`, else
`raw.provenance?.state`, else the empty default), field by field, with
no single-schema validation. -/
theorem quickScanMap_first_present (file : FileInfo) (raw : RawResponse) :
    (∀ v, raw.provenance_state = some v →
      (quickScanMap file raw).provenance_state = v) ∧
    (∀ p v, raw.provenance_state = none → raw.provenance = some p →
      p.state = some v → (quickScanMap file raw).provenance_state = v) ∧
    (raw.provenance_state = none → raw.provenance.bind RawProvenance.state = none →
      (quickScanMap file raw).provenance_state = "") ∧
    (∀ v, raw.summary = some v → (quickScanMap file raw).summary = v) ∧
    (∀ p v, raw.summary = none → raw.provenance = some p → p.summary = some v →
      (quickScanMap file raw).summary = v) ∧
    (∀ v, raw.summary = none → raw.provenance.bind RawProvenance.summary = none →
      raw.one_line_rationale = some v → (quickScanMap file raw).summary = v) ∧
    (∀ v, raw.ai_disclosure = some v →
      (quickScanMap file raw).ai_disclosure = some v) ∧
    (∀ p v, raw.ai_disclosure = none → raw.provenance = some p →
      p.ai_disclosure = some v → (quickScanMap file raw).ai_disclosure = some v) ∧
    (∀ v, raw.ai_disclosure = none →
      raw.provenance.bind RawProvenance.ai_disclosure = none → raw.ai = some v →
      (quickScanMap file raw).ai_disclosure = some v) ∧
    (∀ v, raw.transformations = some v →
      (quickScanMap file raw).transformations = some v) ∧
    (∀ p v, raw.transformations = none → raw.provenance = some p →
      p.transformations = some v →
      (quickScanMap file raw).transformations = some v) ∧
    (∀ v, raw.findings = some v → (quickScanMap file raw).findings = some v) ∧
    (∀ p v, raw.findings = none → raw.provenance = some p → p.findings = some v →
      (quickScanMap file raw).findings = some v) ∧
    (∀ v, raw.findings = none → raw.provenance.bind RawProvenance.findings = none →
      raw.flags = some v → (quickScanMap file raw).findings = some v) ∧
    (∀ v, raw.c2pa = some v → (quickScanMap file raw).c2pa = some v) ∧
    (∀ v, raw.c2pa = none → raw.c2pa_summary = some v →
      (quickScanMap file raw).c2pa = some v) ∧
    (∀ p v, raw.c2pa = none → raw.c2pa_summary = none → raw.provenance = some p →
      p.c2pa = some v → (quickScanMap file raw).c2pa = some v) ∧
    (∀ p v, raw.c2pa = none → raw.c2pa_summary = none → raw.provenance = some p →
      p.c2pa = none → p.c2pa_summary = some v →
      (quickScanMap file raw).c2pa = some v) ∧
    (∀ v, raw.metadata = some v → (quickScanMap file raw).metadata = some v) ∧
    (∀ p v, raw.metadata = none → raw.provenance = some p → p.metadata = some v →
      (quickScanMap file raw).metadata = some v) ∧
    (∀ v, raw.ffprobe = some v → (quickScanMap file raw).ffprobe = some v) ∧
    (∀ mo v, raw.ffprobe = none → raw.media = some mo → mo.ffprobe = some v →
      (quickScanMap file raw).ffprobe = some v) ∧
    (∀ p v, raw.ffprobe = none → raw.media.bind RawMedia.ffprobe = none →
      raw.provenance = some p → p.ffprobe = some v →
      (quickScanMap file raw).ffprobe = some v) := by
  refine ⟨fun v h => by simp [quickScanMap, h],
    fun p v h0 h1 h2 => by simp [quickScanMap, h0, h1, h2],
    fun h0 h1 => by simp [quickScanMap, h0, h1],
    fun v h => by simp [quickScanMap, h],
    fun p v h0 h1 h2 => by simp [quickScanMap, h0, h1, h2],
    fun v h0 h1 h2 => by simp [quickScanMap, h0, h1, h2],
    fun v h => by simp [quickScanMap, h],
    fun p v h0 h1 h2 => by simp [quickScanMap, h0, h1, h2],
    fun v h0 h1 h2 => by simp [quickScanMap, h0, h1, h2],
    fun v h => by simp [quickScanMap, h],
    fun p v h0 h1 h2 => by simp [quickScanMap, h0, h1, h2],
    fun v h => by simp [quickScanMap, h],
    fun p v h0 h1 h2 => by simp [quickScanMap, h0, h1, h2],
    fun v h0 h1 h2 => by simp [quickScanMap, h0, h1, h2],
    fun v h => by simp [quickScanMap, h],
    fun v h0 h1 => by simp [quickScanMap, h0, h1],
    fun p v h0 h1 h2 h3 => by simp [quickScanMap, h0, h1, h2, h3],
    fun p v h0 h1 h2 h3 h4 => by simp [quickScanMap, h0, h1, h2, h3, h4],
    fun v h => by simp [quickScanMap, h],
    fun p v h0 h1 h2 => by simp [quickScanMap, h0, h1, h2],
    fun v h => by simp [quickScanMap, h],
    fun mo v h0 h1 h2 => by simp [quickScanMap, h0, h1, h2],
    fun p v h0 h1 h2 h3 => by simp [quickScanMap, h0, h1, h2, h3]⟩

/-- Witness for C8 on a concrete response: the nested provenance state,
the flat summary, the `flags` fallback for findings, and the flat
metadata are each picked up. -/
theorem quickScanMap_first_present_witness :
    (quickScanMap sampleFile sampleRaw).provenance_state = "VERIFIED_ORIGINAL" ∧
    (quickScanMap sampleFile sampleRaw).summary = "looks consistent" ∧
    (quickScanMap sampleFile sampleRaw).findings = some (.arr []) ∧
    (quickScanMap sampleFile sampleRaw).metadata = some (.obj []) := by
  have h := quickScanMap_first_present sampleFile sampleRaw
  exact ⟨h.2.1 sampleProvenance "VERIFIED_ORIGINAL" rfl rfl rfl,
    h.2.2.2.1 "looks consistent" rfl,
    h.2.2.2.2.2.2.2.2.2.2.2.2.2.1 (.arr []) rfl rfl rfl,
    h.2.2.2.2.2.2.2.2.2.2.2.2.2.2.2.2.2.2.1 (.obj []) rfl⟩

/-- Counterexample to claim C1 as stated: the per-evidence report caller
saves a response whose content type is `application/json` — which does
not contain `application/pdf` — as a PDF document, so not every caller
branches on the returned content type (`ReportCallersBranch` fails). -/
theorem reportCallers_counterexample :
    generateEvidenceReport "application/json" = .savePdf ∧
    strIncludes (strToLower "application/json") "application/pdf" = false ∧
    ¬ ReportCallersBranch := by
  refine ⟨rfl, by decide, fun h => ?_⟩
  exact h.2.2 "application/json" (by decide) rfl

/-- Claim C1 amended: the case-level report caller (`generateReport`)
branches on the returned content type — PDF saved as a PDF document,
JSON with a nonempty `markdown` string saved as that text, other JSON
saved as raw JSON, and any other content type saved as text — while the
per-evidence caller (`generateEvidenceReport`) saves the response body
as a PDF document regardless of content type. -/
theorem reportCallers_branching (ct : String) (md : Option String) (s : String) :
    (strIncludes (strToLower ct) "application/pdf" = true →
      generateReport ct md = .savePdf) ∧
    (strIncludes (strToLower ct) "application/pdf" = false →
      strIncludes (strToLower ct) "application/json" = true →
      md = some s → strTrim s ≠ "" → generateReport ct md = .saveMarkdown s) ∧
    (strIncludes (strToLower ct) "application/pdf" = false →
      strIncludes (strToLower ct) "application/json" = true → md = none →
      generateReport ct md = .saveRawJson) ∧
    (strIncludes (strToLower ct) "application/pdf" = false →
      strIncludes (strToLower ct) "application/json" = false →
      generateReport ct md = .saveText) ∧
    generateEvidenceReport ct = .savePdf := by
  refine ⟨fun h => by simp [generateReport, h],
    fun h0 h1 h2 h3 => ?_, fun h0 h1 h2 => by simp [generateReport, h0, h1, h2],
    fun h0 h1 => by simp [generateReport, h0, h1], rfl⟩
  subst h2
  simp [generateReport, h0, h1, h3]

/-- Witness for amended C1: a JSON response with nonempty markdown is
saved as markdown text by the case-level caller, while the per-evidence
caller still saves it as PDF. -/
theorem reportCallers_branching_witness :
    generateReport "application/json; charset=utf-8" (some "# Case 12") =
      .saveMarkdown "# Case 12" ∧
    generateEvidenceReport "application/json; charset=utf-8" = .savePdf := by
  have h := reportCallers_branching "application/json; charset=utf-8"
    (some "# Case 12") "# Case 12"
  exact ⟨h.2.1 (by decide) (by decide) rfl (by decide), h.2.2.2.2⟩

/-- The model payload hash is injective (the collision-freeness
assumption on the real cryptographic hash). -/
theorem hashBits_injective : Function.Injective hashBits := by
  intro l1 l2 h
  induction l1 generalizing l2 with
  | nil =>
    cases l2 with
    | nil => rfl
    | cons b t => simp [hashBits] at h
  | cons a s ih =>
    cases l2 with
    | nil => simp [hashBits] at h
    | cons b t =>
      simp only [hashBits, Nat.add_right_cancel_iff] at h
      obtain ⟨h1, h2⟩ := Nat.pair_eq_pair.mp h
      have hab : a = b := by
        cases a <;> cases b <;> simp_all
      rw [hab, ih h2]

/-- Flipping a bit inside the payload changes the payload. -/
theorem flipBit_ne (l : List Bool) (j : ℕ) (hj : j < l.length) : flipBit l j ≠ l := by
  intro h
  have h1 : (flipBit l j)[j]? = some (! l.getD j false) :=
    List.getElem?_set_eq_of_lt _ (by simpa [flipBit] using hj)
  have h2 : l[j]? = some (l.getD j false) := by
    rw [List.getElem?_eq_getElem hj]
    simp [List.getD_eq_getElem?_getD, List.getElem?_eq_getElem hj]
  rw [h] at h1
  rw [h1] at h2
  simp at h2

/-- Mutating at a successor position leaves the head event alone. -/
theorem mutatePayload_cons (e : CustodyEvent) (es : List CustodyEvent) (k j : ℕ) :
    mutatePayload (e :: es) (k + 1) j = e :: mutatePayload es k j := by
  unfold mutatePayload
  cases h : es[k]? <;> simp [h]

/-- An untampered chain built from any payloads passes the walk. -/
theorem verifyAux_mkChainAux (ps : List (List Bool)) :
    ∀ prev idx, verifyAux prev (mkChainAux prev idx ps) = .ok () := by
  induction ps with
  | nil => intro prev idx; rfl
  | cons p t ih =>
    intro prev idx
    simp [mkChainAux, verifyAux, ih]

/-- The event stored at position `k` of a built chain has id `idx + k`
and carries the `k`-th payload. -/
theorem mkChainAux_getElem (ps : List (List Bool)) :
    ∀ prev idx k p, ps[k]? = some p →
      ∃ e, (mkChainAux prev idx ps)[k]? = some e ∧ e.id = idx + k ∧ e.payload = p := by
  induction ps with
  | nil => intro prev idx k p hp; simp at hp
  | cons q t ih =>
    intro prev idx k p hp
    cases k with
    | zero =>
      have hq : q = p := by simpa using hp
      subst hq
      refine ⟨⟨idx, q, prev, Nat.pair (hashBits q) prev⟩, ?_, rfl, rfl⟩
      simp [mkChainAux]
    | succ k' =>
      simp only [List.getElem?_cons_succ] at hp
      obtain ⟨e, he, hid, hpay⟩ := ih (Nat.pair (hashBits q) prev) (idx + 1) k' p hp
      refine ⟨e, ?_, by omega, hpay⟩
      simp [mkChainAux, he]

/-- The walk over a chain whose `k`-th payload was bit-flipped reaches
position `k` with every earlier hash matching and errors there. -/
theorem verifyAux_mutate (ps : List (List Bool)) :
    ∀ prev idx k j p, ps[k]? = some p → j < p.length →
      verifyAux prev (mutatePayload (mkChainAux prev idx ps) k j) = .error (idx + k) := by
  induction ps with
  | nil => intro prev idx k j p hp _; simp at hp
  | cons q t ih =>
    intro prev idx k j p hp hj
    cases k with
    | zero =>
      have hq : q = p := by simpa using hp
      subst hq
      have hne : Nat.pair (hashBits (flipBit q j)) prev ≠ Nat.pair (hashBits q) prev := by
        intro hcontra
        exact flipBit_ne q j hj (hashBits_injective (Nat.pair_eq_pair.mp hcontra).1)
      simp [mkChainAux, mutatePayload, verifyAux, hne]
    | succ k' =>
      simp only [List.getElem?_cons_succ] at hp
      simp only [mkChainAux, mutatePayload_cons]
      simp only [verifyAux, if_pos rfl]
      rw [ih (Nat.pair (hashBits q) prev) (idx + 1) k' j p hp hj]
      exact congrArg Except.error (by omega)

/-- Claim C2: for every custody-event chain and every single-bit mutation
of a stored event's payload (the chain hashes left untouched), the
verification walk — which recomputes each combined hash in order —
detects the mutation: it raises the integrity error at the first
divergent event, reports that event's id, and halts there; the
untampered chain passes the same walk. -/
theorem ledger_detects_bit_flip (ps : List (List Bool)) (i j : ℕ) (p : List Bool)
    (hp : ps[i]? = some p) (hj : j < p.length) :
    verifyWalk (mkChain ps) = .ok () ∧
    (∃ e, (mkChain ps)[i]? = some e ∧ e.id = i ∧ e.payload = p) ∧
    verifyWalk (mutatePayload (mkChain ps) i j) = .error i := by
  refine ⟨verifyAux_mkChainAux ps 0 0, ?_, ?_⟩
  · simpa [mkChain] using mkChainAux_getElem ps 0 0 i p hp
  · simpa [verifyWalk, mkChain] using verifyAux_mutate ps 0 0 i j p hp hj

/-- Witness for C2: a three-event chain verifies; flipping the first bit
of the second event's payload makes the walk error with id 1. -/
theorem ledger_detects_bit_flip_witness :
    verifyWalk (mkChain [[true, false], [false, true], [true]]) = .ok () ∧
    (∃ e, (mkChain [[true, false], [false, true], [true]])[1]? = some e ∧
      e.id = 1 ∧ e.payload = [false, true]) ∧
    verifyWalk (mutatePayload (mkChain [[true, false], [false, true], [true]]) 1 0) =
      .error 1 :=
  ledger_detects_bit_flip [[true, false], [false, true], [true]] 1 0 [false, true]
    rfl (by decide)

/-- Claim C4: evidence upload is idempotent per (case, digest) — after
any successful upload, uploading byte-identical content to the same case
returns the very same Evidence record, leaves the evidence table, blob
store and job queue unchanged, and appends exactly one
"duplicate-detected" custody event. -/
theorem upload_idempotent (st st1 : StoreState) (c : ℕ) (fn fn2 : String)
    (bytes : List ℕ) (e1 : EvidenceRec)
    (h : upload st c fn bytes = .ok (st1, e1)) :
    ∃ st2, upload st1 c fn2 bytes = .ok (st2, e1) ∧
      st2.evidences = st1.evidences ∧ st2.blobs = st1.blobs ∧
      st2.jobs = st1.jobs ∧
      st2.events = st1.events ++ [(c, "duplicate-detected")] := by
  unfold upload at h ⊢
  cases hsn : sniffKind bytes with
  | none => rw [hsn] at h; cases h
  | some k =>
    rw [hsn] at h
    cases hf : st.evidences.find?
        (fun e : EvidenceRec => e.case_id == c && e.dgst == digest bytes) with
    | some e =>
      simp only [hf] at h
      obtain ⟨hst, he⟩ : ({ st with events := st.events ++ [(c, "duplicate-detected")] } = st1)
          ∧ e = e1 := by
        cases h
        exact ⟨rfl, rfl⟩
      subst hst; subst he
      simp only []
      rw [hf]
      exact ⟨_, rfl, rfl, rfl, rfl, rfl⟩
    | none =>
      simp only [hf] at h
      cases h
      simp only [List.find?_append, hf, Option.none_or]
      have hfind : List.find?
          (fun e : EvidenceRec => e.case_id == c && e.dgst == digest bytes)
          [⟨st.nextId, c, fn, digest bytes, .pending⟩] =
          some ⟨st.nextId, c, fn, digest bytes, .pending⟩ := by
        simp [List.find?]
      rw [hfind]
      exact ⟨_, rfl, rfl, rfl, rfl, rfl⟩

/-- Witness for C4: uploading a JPEG to an empty store and then
re-uploading the identical bytes returns the stored record, creates
nothing new, and appends only the duplicate-detected event. -/
theorem upload_idempotent_witness :
    ∃ st2, upload
        (⟨[(digest [255, 216, 9], [255, 216, 9])],
          [⟨0, 1, "a.jpg", digest [255, 216, 9], .pending⟩],
          [(1, "evidence-added")], 1, [0]⟩ : StoreState) 1 "b.jpg" [255, 216, 9] =
        .ok (st2, ⟨0, 1, "a.jpg", digest [255, 216, 9], .pending⟩) ∧
      st2.evidences = [⟨0, 1, "a.jpg", digest [255, 216, 9], .pending⟩] ∧
      st2.blobs = [(digest [255, 216, 9], [255, 216, 9])] ∧
      st2.jobs = [0] ∧
      st2.events = [(1, "evidence-added")] ++ [(1, "duplicate-detected")] :=
  upload_idempotent ⟨[], [], [], 0, []⟩ _ 1 "a.jpg" "b.jpg" [255, 216, 9] _ rfl

/-- Flag-and-record over a completion order equals mapping the record
constructor over the flagged indices. -/
theorem filterMap_if_eq_map_filter (p : ℕ → Bool) (g : ℕ → ℕ × ℤ) (l : List ℕ) :
    l.filterMap (fun i => if p i then some (g i) else none) = (l.filter p).map g := by
  induction l with
  | nil => rfl
  | cons a t ih => by_cases h : p a <;> simp [h, ih]

/-- Ordered insertion of an {index, score} record by key commutes with
building the records from their indices. -/
theorem orderedInsert_pairKey (scores : ℕ → ℤ) (a : ℕ) (l : List ℕ) :
    List.orderedInsert (fun x y : ℕ × ℤ => x.1 ≤ y.1) (a, scores a)
        (l.map (fun i => (i, scores i)))
      = (List.orderedInsert (· ≤ ·) a l).map (fun i => (i, scores i)) := by
  induction l with
  | nil => rfl
  | cons b t ih =>
    by_cases h : a ≤ b <;> simp [List.orderedInsert, h, ih]

/-- Sorting {index, score} records by key commutes with building the
records from their indices. -/
theorem insertionSort_pairKey (scores : ℕ → ℤ) (l : List ℕ) :
    List.insertionSort (fun x y : ℕ × ℤ => x.1 ≤ y.1) (l.map (fun i => (i, scores i)))
      = (List.insertionSort (· ≤ ·) l).map (fun i => (i, scores i)) := by
  induction l with
  | nil => rfl
  | cons a t ih => simp [List.insertionSort, ih, orderedInsert_pairKey]

/-- Sorting index lists is invariant under permutation. -/
theorem insertionSort_nat_perm_eq (l1 l2 : List ℕ) (h : l1.Perm l2) :
    List.insertionSort (· ≤ ·) l1 = List.insertionSort (· ≤ ·) l2 :=
  List.eq_of_perm_of_sorted
    ((List.perm_insertionSort _ l1).trans (h.trans (List.perm_insertionSort _ l2).symm))
    (List.sorted_insertionSort _ l1) (List.sorted_insertionSort _ l2)

/-- The flagged-frame list does not depend on the completion order of
the per-frame analyses. -/
theorem flaggedFrames_perm_inv (scores : ℕ → ℤ) (cfg : VideoConfig)
    (order order' : List ℕ) (h : order.Perm order') :
    flaggedFrames scores cfg order = flaggedFrames scores cfg order' := by
  unfold flaggedFrames sortByIndex
  rw [filterMap_if_eq_map_filter (frameFlag scores cfg) (fun i => (i, scores i)),
    filterMap_if_eq_map_filter (frameFlag scores cfg) (fun i => (i, scores i)),
    insertionSort_pairKey, insertionSort_pairKey,
    insertionSort_nat_perm_eq _ _ (h.filter (frameFlag scores cfg))]

/-- For a duplicate-free completion order the flagged-frame list is in
strictly ascending frame-index order. -/
theorem flaggedFrames_sorted_of_nodup (scores : ℕ → ℤ) (cfg : VideoConfig)
    (order : List ℕ) (hnd : order.Nodup) :
    (flaggedFrames scores cfg order).Pairwise (fun a b => a.1 < b.1) := by
  unfold flaggedFrames sortByIndex
  rw [filterMap_if_eq_map_filter (frameFlag scores cfg) (fun i => (i, scores i)),
    insertionSort_pairKey]
  have h1 : (List.insertionSort (· ≤ ·) (order.filter (frameFlag scores cfg))).Sorted (· ≤ ·) :=
    List.sorted_insertionSort _ _
  have h2 : (List.insertionSort (· ≤ ·) (order.filter (frameFlag scores cfg))).Nodup :=
    (List.perm_insertionSort _ _).nodup_iff.mpr (hnd.filter _)
  have h3 : (List.insertionSort (· ≤ ·) (order.filter (frameFlag scores cfg))).Pairwise (· < ·) :=
    (h1.and h2).imp (fun hab => lt_of_le_of_ne hab.1 hab.2)
  have h4 : (List.map (fun i => (i, scores i))
      (List.insertionSort (· ≤ ·) (order.filter (frameFlag scores cfg)))).Pairwise
      (fun a b : ℕ × ℤ => a.1 < b.1) := List.pairwise_map.mpr h3
  exact h4.sublist (List.take_sublist cfg.cap _)

/-- Claim C5: for every video, the flagged-frame list is strictly
ascending in frame index, capped at the maximum reported count, and
identical for every completion order (permutation) of the parallel
per-frame analyses; in particular, for 30 sampled frames where exactly
frames 7, 14 and 22 exceed the anomaly threshold, the flagged indices
are exactly `[7, 14, 22]` under every completion order. -/
theorem video_flagged_order_independent (scores : ℕ → ℤ) (cfg : VideoConfig)
    (n : ℕ) (order : List ℕ) (h : order.Perm (List.range n)) :
    flaggedFrames scores cfg order = flaggedFrames scores cfg (List.range n) ∧
    (flaggedFrames scores cfg order).Pairwise (fun a b => a.1 < b.1) ∧
    (flaggedFrames scores cfg order).length ≤ cfg.cap ∧
    (∀ order30, order30.Perm (List.range 30) →
      (flaggedFrames demoScores demoConfig order30).map Prod.fst = [7, 14, 22]) := by
  refine ⟨flaggedFrames_perm_inv scores cfg order (List.range n) h,
    flaggedFrames_sorted_of_nodup scores cfg order
      (h.nodup_iff.mpr (List.nodup_range n)),
    ?_, fun o ho => ?_⟩
  · unfold flaggedFrames
    exact List.length_take_le _ _
  · rw [flaggedFrames_perm_inv demoScores demoConfig o (List.range 30) ho]
    decide

/-- Witness for C5 at the Scenario C configuration with the per-frame
analyses completing in reverse order. -/
theorem video_flagged_order_independent_witness :
    flaggedFrames demoScores demoConfig ((List.range 30).reverse) =
      flaggedFrames demoScores demoConfig (List.range 30) ∧
    (flaggedFrames demoScores demoConfig ((List.range 30).reverse)).Pairwise
      (fun a b => a.1 < b.1) ∧
    (flaggedFrames demoScores demoConfig ((List.range 30).reverse)).length ≤
      demoConfig.cap ∧
    (flaggedFrames demoScores demoConfig ((List.range 30).reverse)).map Prod.fst =
      [7, 14, 22] := by
  have h := video_flagged_order_independent demoScores demoConfig 30
    ((List.range 30).reverse) ((List.range 30).reverse_perm)
  exact ⟨h.1, h.2.1, h.2.2.1, h.2.2.2 _ ((List.range 30).reverse_perm)⟩

/-- Claim C6: the manifest verifier fails closed — for every blob whose
embedded manifest segment is malformed or only partially parseable, the
result has `verified = false` with a `broken_reason` code (and the
segment marked present), and this "broken" outcome differs from the
"absent" outcome of every blob with no manifest segment at all. -/
theorem manifest_fails_closed (roots blob seg : List ℕ)
    (hloc : locateSegment blob = some seg) (hparse : parseManifest seg = none) :
    (verifyManifest roots blob).verified = false ∧
    (verifyManifest roots blob).broken_reason.isSome = true ∧
    (verifyManifest roots blob).present = true ∧
    (∀ blob', locateSegment blob' = none →
      verifyManifest roots blob' ≠ verifyManifest roots blob) := by
  refine ⟨by simp [verifyManifest, hloc, hparse],
    by simp [verifyManifest, hloc, hparse],
    by simp [verifyManifest, hloc, hparse],
    fun blob' h' hcontra => ?_⟩
  have habs : (verifyManifest roots blob').present = false := by
    simp [verifyManifest, h']
  have hbrk : (verifyManifest roots blob).present = true := by
    simp [verifyManifest, hloc, hparse]
  rw [hcontra] at habs
  rw [habs] at hbrk
  cases hbrk

/-- Witness for C6: a blob whose manifest segment declares five assertion
bytes but carries one is classified broken, and differs from the result
on a blob with no manifest marker. -/
theorem manifest_fails_closed_witness :
    (verifyManifest [7] [1, 194, 42, 5, 1]).verified = false ∧
    (verifyManifest [7] [1, 194, 42, 5, 1]).broken_reason.isSome = true ∧
    (verifyManifest [7] [1, 194, 42, 5, 1]).present = true ∧
    verifyManifest [7] [1, 2, 3] ≠ verifyManifest [7] [1, 194, 42, 5, 1] := by
  have h := manifest_fails_closed [7] [1, 194, 42, 5, 1] [5, 1] rfl rfl
  exact ⟨h.1, h.2.1, h.2.2.1, h.2.2.2 [1, 2, 3] rfl⟩

end TruthSig
